import Mathlib

/-!
Verification of the TV sidebar focus-coordination logic of the
nuviostreaming repository, against its natural-language specification.

The repository implements a collapsible TV navigation sidebar in several
near-identical variants, a provider-scoped focus registry, and a fallback
remote-control event hook.  This file gives a shallow embedding of the
behavioural parts of that code:

* FocusRegistry      - TVFocusContext provider (src/unnamed/part_004):
                       a JS Map from item index to a platform ref, with
                       register / unregister / first-handle queries and a
                       shared sidebar-has-focus flag, plus the no-op
                       fallback returned when no provider is mounted.
* SidebarPress       - the onPress handler shared by all sidebar variants
                       (src/src/components/tv/TVSidebar.tsx lines 183-193):
                       emits a cancellable tabPress intent and navigates
                       only when the item is not active and the intent was
                       not prevented.
* FocusGuideSidebar  - the TVFocusGuideView variant (src/unnamed/part_001):
                       handleItemFocus sets focusedIndex and expands;
                       handleItemBlur schedules a 50-unit delayed check that
                       collapses only if focusedIndex is still the blurred
                       index at expiry.  Timers are never cancelled; the
                       timeout id is discarded.
* CollapsibleSidebar - the simple collapsible variant (src/unnamed/part_000):
                       handleItemFocus clears the ref-stored collapse timer,
                       handleItemBlur stores a fresh 200-unit timer in the
                       ref (without clearing a previous one), and the unmount
                       cleanup clears whatever timer the ref holds.
* DrawerSidebar      - the modal drawer variant
                       (src/src/components/tv/TVSidebar.tsx lines 438-496):
                       like CollapsibleSidebar with a 150-unit delay plus a
                       component-local hasSidebarFocus flag.  The component
                       does not import the TVFocusContext, so the registry
                       flag is never written by it.
* SidebarFocusHook   - the useTVSidebarFocus hook (src/unnamed/part_005):
                       counts rapid same-direction left presses (window of
                       300 time units) to detect a stuck-at-edge condition.

Time is discrete: one tick event advances every pending timer by one unit,
and timers whose remaining time reaches zero fire (in scheduling order),
exactly as the single-threaded JS event loop would run the setTimeout
callbacks.
-/

set_option maxRecDepth 100000

namespace FocusRegistry

/-- One registry cell: sidebar item index paired with the stored ref.
A ref is modelled as a natural number; the JS code stores only truthy
(non-null) refs, which the register operation enforces below. -/
abbrev Registry := List (Nat × Nat)

/-- JS Map.set: overwrite the value when the key is present, otherwise
append the new entry (insertion order is kept, as in a JS Map). -/
def mapSet : Registry → Nat → Nat → Registry
  | [], k, v => [(k, v)]
  | (k2, v2) :: t, k, v =>
      if k2 = k then (k, v) :: t else (k2, v2) :: mapSet t k v

/-- JS Map.get: first entry with the key, if any. -/
def mapGet : Registry → Nat → Option Nat
  | [], _ => none
  | (k2, v2) :: t, k => if k2 = k then some v2 else mapGet t k

/-- JS Map.delete: remove the entry with the key. -/
def mapDelete (reg : Registry) (k : Nat) : Registry :=
  reg.filter (fun p => p.1 ≠ k)

/-- registerSidebarItem from part_004 lines 32-36: the ref is stored only
when it is truthy; a null ref (modelled as none) leaves the map untouched. -/
def registerSidebarItem (reg : Registry) (index : Nat) (ref : Option Nat) :
    Registry :=
  match ref with
  | none => reg
  | some r => mapSet reg index r

/-- unregisterSidebarItem from part_004 lines 38-40. -/
def unregisterSidebarItem (reg : Registry) (index : Nat) : Registry :=
  mapDelete reg index

/-- Insertion of one key into an ascending list, modelling one step of the
JS sort((a, b) => a - b) of the key array. -/
def insertAsc (x : Nat) : List Nat → List Nat
  | [] => [x]
  | y :: t => if x ≤ y then x :: y :: t else y :: insertAsc x t

/-- Ascending sort of the key array, as sortedKeys in part_004 line 52. -/
def sortAsc : List Nat → List Nat
  | [] => []
  | x :: t => insertAsc x (sortAsc t)

/-- getFirstSidebarNodeHandle from part_004 lines 50-60: sort the keys
ascending, take the first, fetch its ref and resolve it through
findNodeHandle (an opaque platform function, passed as a parameter).
Stored refs are always truthy, so the JS truthiness guard on the fetched
ref corresponds to the match on the map lookup. -/
def getFirstSidebarNodeHandle (fnh : Nat → Option Nat) (reg : Registry) :
    Option Nat :=
  match sortAsc (reg.map (fun p => p.1)) with
  | [] => none
  | k :: _ =>
      match mapGet reg k with
      | some r => fnh r
      | none => none

/-- World visible to a consumer of the context: the registry map together
with the shared sidebar-has-focus flag. -/
structure World where
  reg : Registry
  hasFocusFlag : Bool
deriving DecidableEq

/-- Fallback registerSidebarItem from part_004 line 83 when no provider is
mounted: () => empty body, so the world is unchanged. -/
def noopRegisterSidebarItem (w : World) (_index : Nat) (_ref : Option Nat) :
    World := w

/-- Fallback unregisterSidebarItem from part_004 line 84. -/
def noopUnregisterSidebarItem (w : World) (_index : Nat) : World := w

/-- Fallback getSidebarNodeHandle from part_004 line 85: always null. -/
def noopGetSidebarNodeHandle (_w : World) (_index : Nat) : Option Nat := none

/-- Fallback getFirstSidebarNodeHandle from part_004 line 86: always null. -/
def noopGetFirstSidebarNodeHandle (_w : World) : Option Nat := none

/-- Fallback sidebarHasFocus value from part_004 line 87: always false. -/
def noopSidebarHasFocus : Bool := false

/-- Fallback setSidebarHasFocus from part_004 line 88: empty body. -/
def noopSetSidebarHasFocus (w : World) (_b : Bool) : World := w

end FocusRegistry

namespace SidebarPress

/-- One navigation route as handed to the sidebar by the host tab
navigator: a key and a display name. -/
structure TabRoute where
  key : String
  name : String
deriving DecidableEq

/-- The navigator state consumed by every sidebar variant: the ordered
route list and the index of the active route. -/
structure TabState where
  routes : List TabRoute
  index : Nat
deriving DecidableEq

/-- The onPress handler common to the sidebar variants
(TVSidebar.tsx lines 183-193): emit a cancellable tabPress intent, then
navigate to the route name only when the item is not the active one and no
listener prevented the intent.  The result is the list of navigate calls
made (each element is the route name passed to navigation.navigate). -/
def onPressNavigateCalls (st : TabState) (index : Nat)
    (defaultPrevented : Bool) : List String :=
  match st.routes[index]? with
  | none => []
  | some route =>
      let isActive := st.index = index
      if ¬ isActive ∧ ¬ defaultPrevented then [route.name] else []

/-- Applying the navigate calls of one press to the navigator state, with
the host navigate operation kept abstract: with zero calls the state is
returned unchanged. -/
def applyPress (nav : TabState → String → TabState) (st : TabState)
    (index : Nat) (defaultPrevented : Bool) : TabState :=
  (onPressNavigateCalls st index defaultPrevented).foldl nav st

/-- Pressing the same item n times in a row. -/
def pressRepeat (nav : TabState → String → TabState) (index : Nat)
    (defaultPrevented : Bool) : Nat → TabState → TabState
  | 0, st => st
  | n + 1, st => pressRepeat nav index defaultPrevented n
      (applyPress nav st index defaultPrevented)

end SidebarPress

namespace FocusGuideSidebar

/-- Controller state of the TVFocusGuideView sidebar variant
(src/unnamed/part_001).  pending holds the live setTimeout callbacks
scheduled by handleItemBlur, in scheduling order, each as
(remaining time, captured item index); the component keeps no reference to
them, so nothing ever cancels them. -/
structure State where
  isExpanded : Bool
  focusedIndex : Option Nat
  pending : List (Nat × Nat)
deriving DecidableEq

/-- Events seen by the controller: a focus or blur callback from an item,
or one unit of time passing on the event loop. -/
inductive Ev where
  | focus (index : Nat)
  | blur (index : Nat)
  | tick
deriving DecidableEq

/-- handleItemFocus from part_001 lines 56-59: set focusedIndex to the item
and expand.  No timer is touched. -/
def handleItemFocus (s : State) (index : Nat) : State :=
  { s with focusedIndex := some index, isExpanded := true }

/-- handleItemBlur from part_001 lines 61-73: schedule a 50-unit timeout
whose callback will collapse only if focusedIndex is still this index. -/
def handleItemBlur (s : State) (index : Nat) : State :=
  { s with pending := s.pending ++ [(50, index)] }

/-- The body of the timeout scheduled by handleItemBlur, run at expiry: it
reads the current focusedIndex; when it still equals the captured index it
collapses the sidebar and clears the focus, otherwise it changes nothing. -/
def fireBlurCheck (s : State) (index : Nat) : State :=
  if s.focusedIndex = some index then
    { s with isExpanded := false, focusedIndex := none }
  else s

/-- Pending timers after one unit of time has been subtracted. -/
def decPending (s : State) : List (Nat × Nat) :=
  s.pending.map (fun p => (p.1 - 1, p.2))

/-- Timers that fire now: remaining time has reached zero. -/
def duePending (s : State) : List (Nat × Nat) :=
  (decPending s).filter (fun p => p.1 = 0)

/-- Timers that stay pending. -/
def livePending (s : State) : List (Nat × Nat) :=
  (decPending s).filter (fun p => ¬ p.1 = 0)

/-- One unit of time: every pending timer advances by one; callbacks whose
remaining time reaches zero run, in scheduling order, while the others
stay pending. -/
def tick (s : State) : State :=
  (duePending s).foldl (fun acc p => fireBlurCheck acc p.2)
    { s with pending := livePending s }

/-- Dispatch of one event. -/
def step (s : State) : Ev → State
  | Ev.focus i => handleItemFocus s i
  | Ev.blur i => handleItemBlur s i
  | Ev.tick => tick s

/-- Run a list of events. -/
def run (s : State) : List Ev → State
  | [] => s
  | e :: t => run (step s e) t

/-- All states reached along a list of events, one per event processed. -/
def runStates (s : State) : List Ev → List State
  | [] => []
  | e :: t => step s e :: runStates (step s e) t

/-- k units of time with no intervening focus or blur. -/
def ticks : Nat → State → State
  | 0, s => s
  | k + 1, s => ticks k (tick s)

/-- Initial controller state (useState(false), useState(null), no timers). -/
def init : State := { isExpanded := false, focusedIndex := none, pending := [] }

/-- Collapsed-and-cleared: the state a successful blur-collapse produces. -/
def Done (s : State) : Prop :=
  s.focusedIndex = none ∧ s.isExpanded = false

/-- Focus accounting relative to item a: either a is the focused item, or
the controller has already collapsed and cleared focus.  This is the
invariant a pending blur-check for item a maintains while only time
passes. -/
def InvFocus (a : Nat) (s : State) : Prop :=
  s.focusedIndex = some a ∨ Done s

/-- State shape after focus moved to item b while only blur-checks for
item a are outstanding: expanded, b focused, and every pending timer
captured index a. -/
def SafeOn (b a : Nat) (s : State) : Prop :=
  s.isExpanded = true ∧ s.focusedIndex = some b ∧ ∀ p ∈ s.pending, p.2 = a

end FocusGuideSidebar

namespace CollapsibleSidebar

/-- Controller state of the collapsible sidebar variant
(src/unnamed/part_000).  pending holds the live setTimeout callbacks as
(timer id, remaining time); collapseTimer is the ref that stores the id of
the most recently scheduled timer (handleItemBlur overwrites it without
clearing the previous timer); nextId supplies fresh timer ids. -/
structure State where
  isExpanded : Bool
  pending : List (Nat × Nat)
  collapseTimer : Option Nat
  nextId : Nat
deriving DecidableEq

/-- Events seen by the controller. -/
inductive Ev where
  | focus
  | blur
  | tick
deriving DecidableEq

/-- clearTimeout on the id held in a ref: a no-op when the ref is null,
and harmless when the id no longer names a live timer. -/
def clearHeld (pending : List (Nat × Nat)) (held : Option Nat) :
    List (Nat × Nat) :=
  match held with
  | none => pending
  | some id => pending.filter (fun p => ¬ p.1 = id)

/-- handleItemFocus from part_000 lines 153-159: clear the timer held in
the ref, null the ref, expand. -/
def handleItemFocus (s : State) : State :=
  { s with pending := clearHeld s.pending s.collapseTimer,
           collapseTimer := none,
           isExpanded := true }

/-- handleItemBlur from part_000 lines 161-166: schedule a 200-unit
collapse and store its id in the ref.  The previous ref content is
overwritten without a clearTimeout. -/
def handleItemBlur (s : State) : State :=
  { s with pending := s.pending ++ [(s.nextId, 200)],
           collapseTimer := some s.nextId,
           nextId := s.nextId + 1 }

/-- The unmount cleanup effect from part_000 lines 168-174: clear the timer
currently held in the ref. -/
def teardown (s : State) : State :=
  { s with pending := clearHeld s.pending s.collapseTimer }

/-- Pending timers after one unit of time has been subtracted. -/
def decPending (s : State) : List (Nat × Nat) :=
  s.pending.map (fun p => (p.1, p.2 - 1))

/-- Timers that fire now. -/
def duePending (s : State) : List (Nat × Nat) :=
  (decPending s).filter (fun p => p.2 = 0)

/-- Timers that stay pending. -/
def livePending (s : State) : List (Nat × Nat) :=
  (decPending s).filter (fun p => ¬ p.2 = 0)

/-- One unit of time: timers advance; each callback that reaches zero runs
setIsExpanded(false).  The ref is not nulled when a timer fires, exactly as
in the source. -/
def tick (s : State) : State :=
  { s with pending := livePending s,
           isExpanded :=
             if (duePending s).isEmpty then s.isExpanded else false }

/-- Dispatch of one event. -/
def step (s : State) : Ev → State
  | Ev.focus => handleItemFocus s
  | Ev.blur => handleItemBlur s
  | Ev.tick => tick s

/-- Run a list of events. -/
def run (s : State) : List Ev → State
  | [] => s
  | e :: t => run (step s e) t

/-- k units of time with no intervening events. -/
def ticks : Nat → State → State
  | 0, s => s
  | k + 1, s => ticks k (tick s)

/-- Host focus discipline: the platform focus engine fires a blur only on
the element that currently has focus, so between any two blur callbacks
the controller necessarily sees a focus callback.  wf checks a trace under
that discipline; the flag records whether a blur may come next. -/
def wf : Bool → List Ev → Bool
  | _, [] => true
  | _, Ev.focus :: t => wf true t
  | canBlur, Ev.blur :: t => canBlur && wf false t
  | canBlur, Ev.tick :: t => wf canBlur t

/-- Initial controller state. -/
def init : State :=
  { isExpanded := false, pending := [], collapseTimer := none, nextId := 0 }

/-- Every live timer is the one whose id the ref currently holds; this is
what makes the single clearTimeout in the cleanup effect sufficient. -/
def Held (s : State) : Prop :=
  ∀ p ∈ s.pending, s.collapseTimer = some p.1

/-- Inductive invariant carried along well-formed traces, paired with the
wf flag: the ref covers all live timers, and right after a focus (when a
blur may come next) no timer is live at all. -/
def Inv (canBlur : Bool) (s : State) : Prop :=
  Held s ∧ (canBlur = true → s.pending = [])

end CollapsibleSidebar

namespace DrawerSidebar

/-- Controller state of the modal drawer sidebar variant
(src/src/components/tv/TVSidebar.tsx lines 438-496): like the collapsible
variant but with a component-local hasSidebarFocus flag and a 150-unit
delay. -/
structure State where
  isExpanded : Bool
  hasSidebarFocus : Bool
  pending : List (Nat × Nat)
  collapseTimer : Option Nat
  nextId : Nat
deriving DecidableEq

/-- handleItemFocus from TVSidebar.tsx lines 462-469: clear the held timer,
null the ref, set the local hasSidebarFocus flag, expand. -/
def handleItemFocus (s : State) : State :=
  { s with pending := CollapsibleSidebar.clearHeld s.pending s.collapseTimer,
           collapseTimer := none,
           hasSidebarFocus := true,
           isExpanded := true }

/-- handleItemBlur from TVSidebar.tsx lines 471-477: schedule a 150-unit
timeout that clears the local flag and collapses, and store its id. -/
def handleItemBlur (s : State) : State :=
  { s with pending := s.pending ++ [(s.nextId, 150)],
           collapseTimer := some s.nextId,
           nextId := s.nextId + 1 }

/-- The component world paired with the Focus Registry provider flag
(src/unnamed/part_004 line 30).  TVSidebar.tsx does not import the
TVFocusContext: none of its handlers call the provider setSidebarHasFocus,
so every handler leaves registrySidebarHasFocus untouched. -/
structure Sys where
  comp : State
  registrySidebarHasFocus : Bool
deriving DecidableEq

/-- The focus handler as it acts on the combined system: it mutates only
the component state. -/
def handleItemFocusSys (w : Sys) : Sys :=
  { w with comp := handleItemFocus w.comp }

end DrawerSidebar

namespace SidebarFocusHook

/-- Remote-control event types forwarded by useTVEventHandler. -/
inductive EventType where
  | left
  | right
  | up
  | down
  | select
deriving DecidableEq

/-- Hook state of useTVSidebarFocus (src/unnamed/part_005): the two refs
lastLeftPressTime and leftPressCount. -/
structure State where
  lastLeftPressTime : Nat
  leftPressCount : Nat
deriving DecidableEq

/-- Observable actions a remote-press handler could take on the rest of
the system: ask the platform to move focus to the sidebar front door, or
mutate the controller flags.  The source hook only ever produces
requestSidebarFocus (and even that leads to an empty stub: the try block
in part_005 lines 46-54 dispatches nothing). -/
inductive Action where
  | requestSidebarFocus
  | setExpanded (b : Bool)
  | setHasFocus (b : Bool)
deriving DecidableEq

/-- The tvEventHandler callback from part_005 lines 29-65.  Guard: nothing
happens when the event is absent or the sidebar already has focus.  On a
left press: if less than 300 time units passed since the last left press
the counter is bumped, and on reaching 2 the stuck-at-edge condition is
detected (counter reset, sidebar focus requested); otherwise the counter
restarts at 1.  lastLeftPressTime is always refreshed on a left press. -/
def tvEventStep (sidebarHasFocus : Bool) (s : State) (evt : Option EventType)
    (now : Nat) : State × List Action :=
  match evt with
  | none => (s, [])
  | some et =>
      if sidebarHasFocus then (s, [])
      else if et = EventType.left then
        let timeSince := now - s.lastLeftPressTime
        if timeSince < 300 then
          let c := s.leftPressCount + 1
          if 2 ≤ c then
            ({ lastLeftPressTime := now, leftPressCount := 0 },
             [Action.requestSidebarFocus])
          else
            ({ lastLeftPressTime := now, leftPressCount := c }, [])
        else
          ({ lastLeftPressTime := now, leftPressCount := 1 }, [])
      else (s, [])

end SidebarFocusHook

namespace FocusRegistry

theorem insertAsc_ne_nil (x : Nat) (l : List Nat) : insertAsc x l ≠ [] := by
  cases l with
  | nil => simp [insertAsc]
  | cons y t =>
      simp only [insertAsc]
      split <;> simp

theorem sortAsc_nil_iff (l : List Nat) : sortAsc l = [] ↔ l = [] := by
  cases l with
  | nil => simp [sortAsc]
  | cons x t =>
      simp only [sortAsc]
      constructor
      · intro h
        exact absurd h (insertAsc_ne_nil x (sortAsc t))
      · intro h
        exact absurd h (List.cons_ne_nil x t)

theorem sortAsc_head_min :
    ∀ (l : List Nat) (k : Nat) (t : List Nat),
      sortAsc l = k :: t → k ∈ l ∧ ∀ x ∈ l, k ≤ x := by
  intro l
  induction l with
  | nil =>
      intro k t h
      simp [sortAsc] at h
  | cons a l2 ih =>
      intro k t h
      simp only [sortAsc] at h
      cases hs : sortAsc l2 with
      | nil =>
          rw [hs] at h
          simp only [insertAsc] at h
          obtain ⟨hk, _⟩ := List.cons.inj h
          have hl2 : l2 = [] := (sortAsc_nil_iff l2).mp hs
          subst hl2
          subst hk
          refine ⟨List.mem_singleton.mpr rfl, ?_⟩
          intro x hx
          rw [List.mem_singleton.mp hx]
      | cons m s =>
          rw [hs] at h
          obtain ⟨hm, hmin⟩ := ih m s hs
          simp only [insertAsc] at h
          by_cases ham : a ≤ m
          · rw [if_pos ham] at h
            obtain ⟨hk, _⟩ := List.cons.inj h
            subst hk
            refine ⟨List.mem_cons_self a l2, ?_⟩
            intro x hx
            rcases List.mem_cons.mp hx with hx1 | hx2
            · rw [hx1]
            · exact le_trans ham (hmin x hx2)
          · rw [if_neg ham] at h
            obtain ⟨hk, _⟩ := List.cons.inj h
            subst hk
            refine ⟨List.mem_cons_of_mem a hm, ?_⟩
            intro x hx
            rcases List.mem_cons.mp hx with hx1 | hx2
            · rw [hx1]
              exact le_of_lt (not_le.mp ham)
            · exact hmin x hx2

theorem mapGet_mem_keys :
    ∀ (reg : Registry) (k : Nat),
      k ∈ reg.map (fun p => p.1) → ∃ v, mapGet reg k = some v := by
  intro reg
  induction reg with
  | nil =>
      intro k hk
      simp at hk
  | cons p t ih =>
      intro k hk
      obtain ⟨k2, v2⟩ := p
      simp only [List.map_cons, List.mem_cons] at hk
      simp only [mapGet]
      by_cases h : k2 = k
      · rw [if_pos h]
        exact ⟨v2, rfl⟩
      · rw [if_neg h]
        rcases hk with h1 | h2
        · exact absurd h1.symm h
        · exact ih k h2

end FocusRegistry

/-- Claim C3: for every registry state, firstHandle returns the handle
registered under the lowest registered index, and none when the registry is
empty; concretely, after registering indices 3, 1, 2 in that order it
returns index 1 handle, after unregistering 1 it returns index 2 handle,
and after unregistering everything it returns none.  The platform
findNodeHandle resolution is the abstract parameter fnh. -/
theorem claim_C3_firstHandle (fnh : Nat → Option Nat) :
    (FocusRegistry.getFirstSidebarNodeHandle fnh [] = none) ∧
    (∀ reg : FocusRegistry.Registry, reg ≠ [] →
      ∃ k, k ∈ reg.map (fun p => p.1) ∧
        (∀ j ∈ reg.map (fun p => p.1), k ≤ j) ∧
        FocusRegistry.getFirstSidebarNodeHandle fnh reg =
          (FocusRegistry.mapGet reg k).bind fnh) ∧
    (∀ r1 r2 r3 : Nat,
      FocusRegistry.getFirstSidebarNodeHandle fnh
        (FocusRegistry.registerSidebarItem
          (FocusRegistry.registerSidebarItem
            (FocusRegistry.registerSidebarItem [] 3 (some r3)) 1 (some r1))
          2 (some r2)) = fnh r1 ∧
      FocusRegistry.getFirstSidebarNodeHandle fnh
        (FocusRegistry.unregisterSidebarItem
          (FocusRegistry.registerSidebarItem
            (FocusRegistry.registerSidebarItem
              (FocusRegistry.registerSidebarItem [] 3 (some r3)) 1 (some r1))
            2 (some r2)) 1) = fnh r2 ∧
      FocusRegistry.getFirstSidebarNodeHandle fnh
        (FocusRegistry.unregisterSidebarItem
          (FocusRegistry.unregisterSidebarItem
            (FocusRegistry.unregisterSidebarItem
              (FocusRegistry.registerSidebarItem
                (FocusRegistry.registerSidebarItem
                  (FocusRegistry.registerSidebarItem [] 3 (some r3)) 1
                    (some r1))
                2 (some r2)) 1) 2) 3) = none) := by
  refine ⟨rfl, ?_, ?_⟩
  · intro reg hreg
    have hkeys : reg.map (fun p => p.1) ≠ [] := by
      intro h
      exact hreg (List.map_eq_nil_iff.mp h)
    have hsort : FocusRegistry.sortAsc (reg.map (fun p => p.1)) ≠ [] := by
      intro h
      exact hkeys ((FocusRegistry.sortAsc_nil_iff _).mp h)
    cases hs : FocusRegistry.sortAsc (reg.map (fun p => p.1)) with
    | nil => exact absurd hs hsort
    | cons k t =>
        obtain ⟨hmem, hmin⟩ := FocusRegistry.sortAsc_head_min _ k t hs
        refine ⟨k, hmem, hmin, ?_⟩
        unfold FocusRegistry.getFirstSidebarNodeHandle
        rw [hs]
        obtain ⟨v, hv⟩ := FocusRegistry.mapGet_mem_keys reg k hmem
        show (match FocusRegistry.mapGet reg k with
              | some r => fnh r
              | none => none) = (FocusRegistry.mapGet reg k).bind fnh
        rw [hv]
        rfl
  · intro r1 r2 r3
    exact ⟨rfl, rfl, rfl⟩

/-- Witness for claim C3 at a concrete registry and handle resolution. -/
theorem claim_C3_firstHandle_witness :
    ([(7, 40), (5, 50)] : FocusRegistry.Registry) ≠ [] ∧
    (∃ k, k ∈ ([(7, 40), (5, 50)] : FocusRegistry.Registry).map
        (fun p => p.1) ∧
      (∀ j ∈ ([(7, 40), (5, 50)] : FocusRegistry.Registry).map
          (fun p => p.1), k ≤ j) ∧
      FocusRegistry.getFirstSidebarNodeHandle some [(7, 40), (5, 50)] =
        (FocusRegistry.mapGet [(7, 40), (5, 50)] k).bind some) :=
  ⟨by decide, (claim_C3_firstHandle some).2.1 [(7, 40), (5, 50)] (by decide)⟩

/-- Claim C8: when no registry provider is mounted, every operation of the
fallback context returned by useTVFocus is a safe no-op: register and
unregister return the world unchanged, the handle queries return none, the
has-focus query returns false, and setting the flag changes nothing.  All
operations are total Lean functions, so none can fail. -/
theorem claim_C8_noop_provider (w : FocusRegistry.World) (i : Nat)
    (r : Option Nat) (b : Bool) :
    FocusRegistry.noopRegisterSidebarItem w i r = w ∧
    FocusRegistry.noopUnregisterSidebarItem w i = w ∧
    FocusRegistry.noopGetSidebarNodeHandle w i = none ∧
    FocusRegistry.noopGetFirstSidebarNodeHandle w = none ∧
    FocusRegistry.noopSidebarHasFocus = false ∧
    FocusRegistry.noopSetSidebarHasFocus w b = w :=
  ⟨rfl, rfl, rfl, rfl, rfl, rfl⟩

/-- Claim C10: registering a null ref leaves the registry completely
unchanged, so a previously registered handle for that index persists until
an explicit unregister. -/
theorem claim_C10_register_null (reg : FocusRegistry.Registry) (i : Nat) :
    FocusRegistry.registerSidebarItem reg i none = reg ∧
    ∀ j, FocusRegistry.mapGet (FocusRegistry.registerSidebarItem reg i none)
        j = FocusRegistry.mapGet reg j :=
  ⟨rfl, fun _ => rfl⟩

/-- Claim C4: pressing a non-active item navigates exactly once to that
item's route when no listener prevented the tabPress intent, and zero
times when a listener did. -/
theorem claim_C4_press_nonactive (st : SidebarPress.TabState) (i : Nat)
    (route : SidebarPress.TabRoute) (hroute : st.routes[i]? = some route)
    (hne : st.index ≠ i) :
    SidebarPress.onPressNavigateCalls st i false = [route.name] ∧
    SidebarPress.onPressNavigateCalls st i true = [] := by
  constructor <;>
    · unfold SidebarPress.onPressNavigateCalls
      rw [hroute]
      simp [hne]

/-- Witness for claim C4 on a concrete two-route navigator state. -/
theorem claim_C4_press_nonactive_witness :
    (SidebarPress.TabState.mk
        [SidebarPress.TabRoute.mk "home" "Home",
         SidebarPress.TabRoute.mk "search" "Search"] 0).routes[1]? =
      some (SidebarPress.TabRoute.mk "search" "Search") ∧
    (SidebarPress.TabState.mk
        [SidebarPress.TabRoute.mk "home" "Home",
         SidebarPress.TabRoute.mk "search" "Search"] 0).index ≠ 1 ∧
    (SidebarPress.onPressNavigateCalls
        (SidebarPress.TabState.mk
          [SidebarPress.TabRoute.mk "home" "Home",
           SidebarPress.TabRoute.mk "search" "Search"] 0) 1 false =
        ["Search"] ∧
      SidebarPress.onPressNavigateCalls
        (SidebarPress.TabState.mk
          [SidebarPress.TabRoute.mk "home" "Home",
           SidebarPress.TabRoute.mk "search" "Search"] 0) 1 true = []) :=
  ⟨rfl, by decide,
    claim_C4_press_nonactive
      (SidebarPress.TabState.mk
        [SidebarPress.TabRoute.mk "home" "Home",
         SidebarPress.TabRoute.mk "search" "Search"] 0) 1
      (SidebarPress.TabRoute.mk "search" "Search") rfl (by decide)⟩

/-- Claim C5: pressing the currently active item never navigates,
whether or not a listener prevented the intent, and pressing it any
number of times leaves the navigator state unchanged, for any host
navigate semantics. -/
theorem claim_C5_press_active (st : SidebarPress.TabState) (i : Nat)
    (h : st.index = i) :
    (∀ b, SidebarPress.onPressNavigateCalls st i b = []) ∧
    (∀ (nav : SidebarPress.TabState → String → SidebarPress.TabState)
        (b : Bool) (n : Nat),
      SidebarPress.pressRepeat nav i b n st = st) := by
  have hcalls : ∀ b, SidebarPress.onPressNavigateCalls st i b = [] := by
    intro b
    unfold SidebarPress.onPressNavigateCalls
    cases hr : st.routes[i]? with
    | none => rfl
    | some route => simp [h]
  refine ⟨hcalls, ?_⟩
  intro nav b n
  induction n with
  | zero => rfl
  | succ n ih =>
      show SidebarPress.pressRepeat nav i b n
          (SidebarPress.applyPress nav st i b) = st
      have happ : SidebarPress.applyPress nav st i b = st := by
        unfold SidebarPress.applyPress
        rw [hcalls b]
        rfl
      rw [happ, ih]

/-- Witness for claim C5 on a concrete state whose active index is 1. -/
theorem claim_C5_press_active_witness :
    (SidebarPress.TabState.mk
        [SidebarPress.TabRoute.mk "home" "Home",
         SidebarPress.TabRoute.mk "search" "Search"] 1).index = 1 ∧
    ((∀ b, SidebarPress.onPressNavigateCalls
        (SidebarPress.TabState.mk
          [SidebarPress.TabRoute.mk "home" "Home",
           SidebarPress.TabRoute.mk "search" "Search"] 1) 1 b = []) ∧
      (∀ (nav : SidebarPress.TabState → String → SidebarPress.TabState)
          (b : Bool) (n : Nat),
        SidebarPress.pressRepeat nav 1 b n
          (SidebarPress.TabState.mk
            [SidebarPress.TabRoute.mk "home" "Home",
             SidebarPress.TabRoute.mk "search" "Search"] 1) =
          SidebarPress.TabState.mk
            [SidebarPress.TabRoute.mk "home" "Home",
             SidebarPress.TabRoute.mk "search" "Search"] 1)) :=
  ⟨rfl,
    claim_C5_press_active
      (SidebarPress.TabState.mk
        [SidebarPress.TabRoute.mk "home" "Home",
         SidebarPress.TabRoute.mk "search" "Search"] 1) 1 rfl⟩

namespace FocusGuideSidebar

theorem fireBlurCheck_pending (s : State) (i : Nat) :
    (fireBlurCheck s i).pending = s.pending := by
  unfold fireBlurCheck
  split <;> rfl

theorem fireBlurCheck_done (s : State) (i : Nat) (h : Done s) :
    Done (fireBlurCheck s i) := by
  unfold fireBlurCheck
  rw [if_neg (by rw [h.1]; simp)]
  exact h

theorem fireBlurCheck_inv (a i : Nat) (s : State) (h : InvFocus a s) :
    InvFocus a (fireBlurCheck s i) := by
  rcases h with h1 | h2
  · unfold fireBlurCheck
    by_cases he : s.focusedIndex = some i
    · rw [if_pos he]
      exact Or.inr ⟨rfl, rfl⟩
    · rw [if_neg he]
      exact Or.inl h1
  · exact Or.inr (fireBlurCheck_done s i h2)

theorem fireBlurCheck_hit (a : Nat) (s : State) (h : InvFocus a s) :
    Done (fireBlurCheck s a) := by
  rcases h with h1 | h2
  · unfold fireBlurCheck
    rw [if_pos h1]
    exact ⟨rfl, rfl⟩
  · exact fireBlurCheck_done s a h2

theorem foldlFire_pending (l : List (Nat × Nat)) :
    ∀ s : State,
      (l.foldl (fun acc p => fireBlurCheck acc p.2) s).pending =
        s.pending := by
  induction l with
  | nil => intro s; rfl
  | cons q t ih =>
      intro s
      show (t.foldl (fun acc p => fireBlurCheck acc p.2)
        (fireBlurCheck s q.2)).pending = s.pending
      rw [ih (fireBlurCheck s q.2), fireBlurCheck_pending]

theorem foldlFire_done (l : List (Nat × Nat)) :
    ∀ s : State, Done s →
      Done (l.foldl (fun acc p => fireBlurCheck acc p.2) s) := by
  induction l with
  | nil => intro s h; exact h
  | cons q t ih =>
      intro s h
      exact ih (fireBlurCheck s q.2) (fireBlurCheck_done s q.2 h)

theorem foldlFire_inv (a : Nat) (l : List (Nat × Nat)) :
    ∀ s : State, InvFocus a s →
      InvFocus a (l.foldl (fun acc p => fireBlurCheck acc p.2) s) := by
  induction l with
  | nil => intro s h; exact h
  | cons q t ih =>
      intro s h
      exact ih (fireBlurCheck s q.2) (fireBlurCheck_inv a q.2 s h)

theorem foldlFire_hit (a : Nat) (l : List (Nat × Nat)) :
    ∀ s : State, InvFocus a s → (∃ p ∈ l, p.2 = a) →
      Done (l.foldl (fun acc p => fireBlurCheck acc p.2) s) := by
  induction l with
  | nil =>
      intro s _ hex
      simp at hex
  | cons q t ih =>
      intro s h hex
      show Done (t.foldl (fun acc p => fireBlurCheck acc p.2)
        (fireBlurCheck s q.2))
      rcases hex with ⟨p, hp, hpa⟩
      rcases List.mem_cons.mp hp with hpq | hpt
      · subst hpq
        rw [hpa]
        exact foldlFire_done t (fireBlurCheck s a) (fireBlurCheck_hit a s h)
      · exact ih (fireBlurCheck s q.2) (fireBlurCheck_inv a q.2 s h)
          ⟨p, hpt, hpa⟩

theorem tick_inv (a : Nat) (s : State) (h : InvFocus a s) :
    InvFocus a (tick s) := by
  unfold tick
  exact foldlFire_inv a _ _ h

theorem tick_done (s : State) (h : Done s) : Done (tick s) := by
  unfold tick
  exact foldlFire_done _ _ h

theorem ticks_done (k : Nat) :
    ∀ s : State, Done s → Done (ticks k s) := by
  induction k with
  | zero => intro s h; exact h
  | succ k ih =>
      intro s h
      exact ih (tick s) (tick_done s h)

theorem tick_pending_live (s : State) (r a : Nat)
    (hmem : (r, a) ∈ s.pending) (hr : 2 ≤ r) :
    (r - 1, a) ∈ (tick s).pending := by
  unfold tick
  rw [foldlFire_pending]
  show (r - 1, a) ∈ livePending s
  unfold livePending decPending
  rw [List.mem_filter]
  refine ⟨List.mem_map.mpr ⟨(r, a), hmem, rfl⟩, ?_⟩
  simp only [decide_eq_true_eq]
  omega

theorem tick_fires (s : State) (r a : Nat)
    (hmem : (r, a) ∈ s.pending) (hr : r ≤ 1) (h : InvFocus a s) :
    Done (tick s) := by
  unfold tick
  have hdue : (r - 1, a) ∈ duePending s := by
    unfold duePending decPending
    rw [List.mem_filter]
    refine ⟨List.mem_map.mpr ⟨(r, a), hmem, rfl⟩, ?_⟩
    simp only [decide_eq_true_eq]
    omega
  exact foldlFire_hit a _ _ h ⟨(r - 1, a), hdue, rfl⟩

theorem collapse_after :
    ∀ (k : Nat) (a : Nat) (s : State) (r : Nat), InvFocus a s →
      (r, a) ∈ s.pending → r ≤ k → 1 ≤ k → Done (ticks k s) := by
  intro k
  induction k with
  | zero =>
      intro a s r _ _ _ hk
      omega
  | succ k ih =>
      intro a s r h hmem hr _
      show Done (ticks k (tick s))
      by_cases hr1 : r ≤ 1
      · exact ticks_done k (tick s) (tick_fires s r a hmem hr1 h)
      · have h2 : 2 ≤ r := by omega
        exact ih a (tick s) (r - 1) (tick_inv a s h)
          (tick_pending_live s r a hmem h2) (by omega) (by omega)

end FocusGuideSidebar

/-- Claim C2: from any controller state in which item a is the focused
item, a blur on a followed by the full 50-unit debounce delay with no
intervening focus event leaves the controller collapsed with no focused
index at expiry, whatever other blur-checks may still be outstanding. -/
theorem claim_C2_blur_collapses (s : FocusGuideSidebar.State) (a : Nat)
    (h : s.focusedIndex = some a) :
    (FocusGuideSidebar.ticks 50
        (FocusGuideSidebar.handleItemBlur s a)).isExpanded = false ∧
    (FocusGuideSidebar.ticks 50
        (FocusGuideSidebar.handleItemBlur s a)).focusedIndex = none := by
  have hInv : FocusGuideSidebar.InvFocus a
      (FocusGuideSidebar.handleItemBlur s a) := Or.inl h
  have hmem : ((50 : Nat), a) ∈
      (FocusGuideSidebar.handleItemBlur s a).pending := by
    unfold FocusGuideSidebar.handleItemBlur
    simp
  have hd := FocusGuideSidebar.collapse_after 50 a
    (FocusGuideSidebar.handleItemBlur s a) 50 hInv hmem (le_refl 50)
    (by omega)
  exact ⟨hd.2, hd.1⟩

/-- Witness for claim C2 from a concrete focused, expanded state. -/
theorem claim_C2_blur_collapses_witness :
    (FocusGuideSidebar.State.mk true (some 0) []).focusedIndex = some 0 ∧
    ((FocusGuideSidebar.ticks 50
        (FocusGuideSidebar.handleItemBlur
          (FocusGuideSidebar.State.mk true (some 0) []) 0)).isExpanded =
        false ∧
      (FocusGuideSidebar.ticks 50
        (FocusGuideSidebar.handleItemBlur
          (FocusGuideSidebar.State.mk true (some 0) []) 0)).focusedIndex =
        none) :=
  ⟨rfl, claim_C2_blur_collapses (FocusGuideSidebar.State.mk true (some 0) [])
    0 rfl⟩

namespace FocusGuideSidebar

theorem run_append (l1 l2 : List Ev) :
    ∀ s : State, run s (l1 ++ l2) = run (run s l1) l2 := by
  induction l1 with
  | nil => intro s; rfl
  | cons e t ih => intro s; exact ih (step s e)

theorem runStates_append (l1 l2 : List Ev) :
    ∀ s : State, runStates s (l1 ++ l2) =
      runStates s l1 ++ runStates (run s l1) l2 := by
  induction l1 with
  | nil => intro s; rfl
  | cons e t ih =>
      intro s
      show step s e :: runStates (step s e) (t ++ l2) = _
      rw [ih (step s e)]
      rfl

theorem tick_single (E : Bool) (F : Option Nat) (r a : Nat) (hr : 2 ≤ r) :
    tick (State.mk E F [(r, a)]) = State.mk E F [(r - 1, a)] := by
  have h0 : ¬ (r - 1 = 0) := by omega
  unfold tick duePending livePending decPending
  simp [h0]

theorem run_ticks_single :
    ∀ (n : Nat) (E : Bool) (F : Option Nat) (r a : Nat), n < r →
      run (State.mk E F [(r, a)]) (List.replicate n Ev.tick) =
        State.mk E F [(r - n, a)] ∧
      ∀ t ∈ runStates (State.mk E F [(r, a)]) (List.replicate n Ev.tick),
        t.isExpanded = E := by
  intro n
  induction n with
  | zero =>
      intro E F r a _
      constructor
      · show State.mk E F [(r, a)] = State.mk E F [(r - 0, a)]
        rw [Nat.sub_zero]
      · intro t ht
        simp [runStates] at ht
  | succ n ih =>
      intro E F r a hn
      have hr2 : 2 ≤ r := by omega
      have hstep : step (State.mk E F [(r, a)]) Ev.tick =
          State.mk E F [(r - 1, a)] := tick_single E F r a hr2
      obtain ⟨ihr, ihs⟩ := ih E F (r - 1) a (by omega)
      constructor
      · show run (step (State.mk E F [(r, a)]) Ev.tick)
            (List.replicate n Ev.tick) = State.mk E F [(r - (n + 1), a)]
        rw [hstep, ihr]
        have harith : r - 1 - n = r - (n + 1) := by omega
        rw [harith]
      · intro t ht
        have ht2 : t ∈ step (State.mk E F [(r, a)]) Ev.tick ::
            runStates (step (State.mk E F [(r, a)]) Ev.tick)
              (List.replicate n Ev.tick) := ht
        rcases List.mem_cons.mp ht2 with h1 | h2
        · rw [h1, hstep]
        · rw [hstep] at h2
          exact ihs t h2

theorem foldlFire_id (l : List (Nat × Nat)) :
    ∀ (s : State) (b : Nat), s.focusedIndex = some b →
      (∀ p ∈ l, ¬ p.2 = b) →
      l.foldl (fun acc p => fireBlurCheck acc p.2) s = s := by
  induction l with
  | nil => intro s b _ _; rfl
  | cons q t ih =>
      intro s b hf hl
      have hq : fireBlurCheck s q.2 = s := by
        unfold fireBlurCheck
        rw [if_neg]
        intro hc
        rw [hf] at hc
        have hb : b = q.2 := by injection hc
        exact hl q (List.mem_cons_self q t) hb.symm
      show t.foldl (fun acc p => fireBlurCheck acc p.2)
        (fireBlurCheck s q.2) = s
      rw [hq]
      exact ih s b hf (fun p hp => hl p (List.mem_cons_of_mem q hp))

theorem tick_safe (b a : Nat) (hba : ¬ b = a) (s : State)
    (h : SafeOn b a s) : SafeOn b a (tick s) := by
  obtain ⟨he, hf, hp⟩ := h
  have hdue : ∀ p ∈ duePending s, ¬ p.2 = b := by
    intro p hp2
    have hpd : p ∈ decPending s := (List.mem_filter.mp hp2).1
    obtain ⟨q, hq, hpq⟩ := List.mem_map.mp hpd
    have hpa : p.2 = a := by
      rw [← hpq]
      exact hp q hq
    rw [hpa]
    intro hab2
    exact hba hab2.symm
  unfold tick
  rw [foldlFire_id (duePending s)
    (State.mk s.isExpanded s.focusedIndex (livePending s)) b hf hdue]
  refine ⟨he, hf, ?_⟩
  intro p hp2
  have hpd : p ∈ decPending s := (List.mem_filter.mp hp2).1
  obtain ⟨q, hq, hpq⟩ := List.mem_map.mp hpd
  rw [← hpq]
  exact hp q hq

theorem runStates_ticks_inv (P : State → Prop)
    (hP : ∀ x : State, P x → P (tick x)) :
    ∀ (n : Nat) (s : State), P s →
      P (run s (List.replicate n Ev.tick)) ∧
      ∀ t ∈ runStates s (List.replicate n Ev.tick), P t := by
  intro n
  induction n with
  | zero =>
      intro s h
      refine ⟨h, ?_⟩
      intro t ht
      simp [runStates] at ht
  | succ n ih =>
      intro s h
      obtain ⟨ihr, ihs⟩ := ih (tick s) (hP s h)
      refine ⟨ihr, ?_⟩
      intro t ht
      have ht2 : t ∈ tick s ::
          runStates (tick s) (List.replicate n Ev.tick) := ht
      rcases List.mem_cons.mp ht2 with h1 | h2
      · rw [h1]
        exact hP s h
      · exact ihs t h2

end FocusGuideSidebar

/-- Claim C1 counterexample: the claim fails on the part_001 controller.
Start from the initial state and process, one event per step with unit
ticks between groups: focus on item 0 at time 0, blur on item 0 at time 0
(its check expires at time 50), ten units of time, focus back on item 0 at
time 10, ten more units, blur on item 0 at time 20 (its check expires at
time 70).  At that point a collapse for the time-20 blur is pending and
the sidebar is expanded (first conjunct).  Thirty more units later, at
time 50 - an instant that lies between that blur and a focus on item 1
arriving at time 50, which would be well before the expiry at time 70, as
the still-pending timer (20 units left) shows - the stale timer from the
time-0 blur has fired and collapsed the sidebar: isExpanded is false, so
the expanded flag does not remain true at every instant from the blur
through the focus, refuting the claim. -/
theorem claim_C1_counterexample :
    ((FocusGuideSidebar.run FocusGuideSidebar.init
        ([FocusGuideSidebar.Ev.focus 0, FocusGuideSidebar.Ev.blur 0]
          ++ List.replicate 10 FocusGuideSidebar.Ev.tick
          ++ [FocusGuideSidebar.Ev.focus 0]
          ++ List.replicate 10 FocusGuideSidebar.Ev.tick
          ++ [FocusGuideSidebar.Ev.blur 0])).pending = [(30, 0), (50, 0)] ∧
      (FocusGuideSidebar.run FocusGuideSidebar.init
        ([FocusGuideSidebar.Ev.focus 0, FocusGuideSidebar.Ev.blur 0]
          ++ List.replicate 10 FocusGuideSidebar.Ev.tick
          ++ [FocusGuideSidebar.Ev.focus 0]
          ++ List.replicate 10 FocusGuideSidebar.Ev.tick
          ++ [FocusGuideSidebar.Ev.blur 0])).isExpanded = true) ∧
    ((FocusGuideSidebar.run FocusGuideSidebar.init
        ([FocusGuideSidebar.Ev.focus 0, FocusGuideSidebar.Ev.blur 0]
          ++ List.replicate 10 FocusGuideSidebar.Ev.tick
          ++ [FocusGuideSidebar.Ev.focus 0]
          ++ List.replicate 10 FocusGuideSidebar.Ev.tick
          ++ [FocusGuideSidebar.Ev.blur 0]
          ++ List.replicate 30 FocusGuideSidebar.Ev.tick)).isExpanded =
        false ∧
      (FocusGuideSidebar.run FocusGuideSidebar.init
        ([FocusGuideSidebar.Ev.focus 0, FocusGuideSidebar.Ev.blur 0]
          ++ List.replicate 10 FocusGuideSidebar.Ev.tick
          ++ [FocusGuideSidebar.Ev.focus 0]
          ++ List.replicate 10 FocusGuideSidebar.Ev.tick
          ++ [FocusGuideSidebar.Ev.blur 0]
          ++ List.replicate 30 FocusGuideSidebar.Ev.tick)).pending =
        [(20, 0)]) := by
  decide

/-- Claim C1 as amended: when the blur on item a is the only scheduled
collapse (no earlier blur-check is still outstanding), a focus event on a
different item b arriving j units later, before the 50-unit debounce
expires, leaves the expanded flag true at every instant from the blur
through the focus and past the original expiry, however much further time
passes. -/
theorem claim_C1_amended (s : FocusGuideSidebar.State) (a b j k : Nat)
    (hpend : s.pending = []) (hexp : s.isExpanded = true)
    (hab : b ≠ a) (hj : j < 50) :
    ∀ t ∈ FocusGuideSidebar.runStates s
        ([FocusGuideSidebar.Ev.blur a]
          ++ List.replicate j FocusGuideSidebar.Ev.tick
          ++ [FocusGuideSidebar.Ev.focus b]
          ++ List.replicate k FocusGuideSidebar.Ev.tick),
      t.isExpanded = true := by
  obtain ⟨E, F, P⟩ := s
  simp only at hpend hexp
  subst hpend
  subst hexp
  intro t ht
  have hs1 : FocusGuideSidebar.step (FocusGuideSidebar.State.mk true F [])
      (FocusGuideSidebar.Ev.blur a) =
      FocusGuideSidebar.State.mk true F [(50, a)] := rfl
  have hsplit1 : FocusGuideSidebar.runStates
      (FocusGuideSidebar.State.mk true F [])
      ([FocusGuideSidebar.Ev.blur a]
        ++ List.replicate j FocusGuideSidebar.Ev.tick
        ++ [FocusGuideSidebar.Ev.focus b]
        ++ List.replicate k FocusGuideSidebar.Ev.tick) =
      FocusGuideSidebar.State.mk true F [(50, a)] ::
        FocusGuideSidebar.runStates
          (FocusGuideSidebar.State.mk true F [(50, a)])
          (List.replicate j FocusGuideSidebar.Ev.tick
            ++ [FocusGuideSidebar.Ev.focus b]
            ++ List.replicate k FocusGuideSidebar.Ev.tick) := rfl
  rw [hsplit1] at ht
  obtain ⟨hrun1, hmem1⟩ := FocusGuideSidebar.run_ticks_single j true F 50 a hj
  rcases List.mem_cons.mp ht with h1 | h2
  · rw [h1]
  · rw [FocusGuideSidebar.runStates_append,
      FocusGuideSidebar.runStates_append, FocusGuideSidebar.run_append,
      hrun1] at h2
    have hfb : FocusGuideSidebar.runStates
        (FocusGuideSidebar.State.mk true F [(50 - j, a)])
        [FocusGuideSidebar.Ev.focus b] =
        [FocusGuideSidebar.State.mk true (some b) [(50 - j, a)]] := rfl
    have hfb2 : FocusGuideSidebar.run
        (FocusGuideSidebar.State.mk true F [(50 - j, a)])
        [FocusGuideSidebar.Ev.focus b] =
        FocusGuideSidebar.State.mk true (some b) [(50 - j, a)] := rfl
    rw [hfb, hfb2] at h2
    have hsafe : FocusGuideSidebar.SafeOn b a
        (FocusGuideSidebar.State.mk true (some b) [(50 - j, a)]) := by
      refine ⟨rfl, rfl, ?_⟩
      intro p hp
      rw [List.mem_singleton.mp hp]
    have hba : ¬ b = a := hab
    obtain ⟨_, hmem3⟩ := FocusGuideSidebar.runStates_ticks_inv
      (FocusGuideSidebar.SafeOn b a)
      (fun x hx => FocusGuideSidebar.tick_safe b a hba x hx) k
      (FocusGuideSidebar.State.mk true (some b) [(50 - j, a)]) hsafe
    rcases List.mem_append.mp h2 with h3 | h4
    · rcases List.mem_append.mp h3 with h5 | h6
      · exact hmem1 t h5
      · rw [List.mem_singleton.mp h6]
    · exact (hmem3 t h4).1

/-- Witness for the amended claim C1 on a concrete run: blur on item 0,
ten units of time, focus on item 1, then sixty more units (well past the
original expiry at 50); the expanded flag is true at every step. -/
theorem claim_C1_amended_witness :
    (FocusGuideSidebar.State.mk true (some 0) []).pending = [] ∧
    (FocusGuideSidebar.State.mk true (some 0) []).isExpanded = true ∧
    (1 : Nat) ≠ 0 ∧ 10 < 50 ∧
    ∀ t ∈ FocusGuideSidebar.runStates
        (FocusGuideSidebar.State.mk true (some 0) [])
        ([FocusGuideSidebar.Ev.blur 0]
          ++ List.replicate 10 FocusGuideSidebar.Ev.tick
          ++ [FocusGuideSidebar.Ev.focus 1]
          ++ List.replicate 60 FocusGuideSidebar.Ev.tick),
      t.isExpanded = true :=
  ⟨rfl, rfl, by decide, by decide,
    claim_C1_amended (FocusGuideSidebar.State.mk true (some 0) []) 0 1 10 60
      rfl rfl (by decide) (by decide)⟩

namespace CollapsibleSidebar

theorem clearHeld_all (pending : List (Nat × Nat)) (held : Option Nat)
    (h : ∀ p ∈ pending, held = some p.1) : clearHeld pending held = [] := by
  cases held with
  | none =>
      cases pending with
      | nil => rfl
      | cons p t => exact absurd (h p (List.mem_cons_self p t)) (by simp)
  | some id =>
      unfold clearHeld
      rw [List.filter_eq_nil_iff]
      intro p hp
      have h2 := h p hp
      have h3 : id = p.1 := by injection h2
      simp [h3]

theorem held_focus (s : State) (h : Held s) :
    (handleItemFocus s).pending = [] :=
  clearHeld_all s.pending s.collapseTimer h

theorem inv_tick (cb : Bool) (s : State) (h : Inv cb s) : Inv cb (tick s) := by
  constructor
  · intro p hp
    have hp2 : p ∈ livePending s := hp
    have hpd : p ∈ decPending s := (List.mem_filter.mp hp2).1
    obtain ⟨q, hq, hpq⟩ := List.mem_map.mp hpd
    show s.collapseTimer = some p.1
    rw [← hpq]
    exact h.1 q hq
  · intro hcb
    show livePending s = []
    unfold livePending decPending
    rw [h.2 hcb]
    rfl

theorem inv_run :
    ∀ (tr : List Ev) (cb : Bool) (s : State),
      Inv cb s → wf cb tr = true → Held (run s tr) := by
  intro tr
  induction tr with
  | nil =>
      intro cb s hinv _
      exact hinv.1
  | cons e t ih =>
      intro cb s hinv hwf
      cases e with
      | focus =>
          have hwf2 : wf true t = true := hwf
          have hpend : (handleItemFocus s).pending = [] := held_focus s hinv.1
          have hinv2 : Inv true (handleItemFocus s) := by
            constructor
            · intro p hp
              rw [hpend] at hp
              simp at hp
            · intro _
              exact hpend
          exact ih true (handleItemFocus s) hinv2 hwf2
      | blur =>
          have hwf2 : (cb && wf false t) = true := hwf
          obtain ⟨hcb, hwf3⟩ := Bool.and_eq_true_iff.mp hwf2
          have hpend : s.pending = [] := hinv.2 hcb
          have hinv2 : Inv false (handleItemBlur s) := by
            constructor
            · intro p hp
              have hp2 : p ∈ s.pending ++ [(s.nextId, 200)] := hp
              rw [hpend] at hp2
              simp at hp2
              show some s.nextId = some p.1
              rw [hp2]
            · intro hf
              exact absurd hf Bool.false_ne_true
          exact ih false (handleItemBlur s) hinv2 hwf3
      | tick =>
          exact ih cb (tick s) (inv_tick cb s hinv) hwf

theorem teardown_pending (s : State) (h : Held s) :
    (teardown s).pending = [] :=
  clearHeld_all s.pending s.collapseTimer h

theorem tick_noPending (s : State) (h : s.pending = []) : tick s = s := by
  obtain ⟨e, p, c, n⟩ := s
  simp only at h
  subst h
  rfl

theorem ticks_noPending (k : Nat) :
    ∀ s : State, s.pending = [] → ticks k s = s := by
  induction k with
  | zero => intro s _; rfl
  | succ k ih =>
      intro s h
      show ticks k (tick s) = s
      rw [tick_noPending s h]
      exact ih s h

end CollapsibleSidebar

/-- Claim C6: along any event trace obeying the host focus discipline (a
blur callback only ever follows a focus callback, since only the focused
element can blur), tearing the controller down cancels every pending
collapse timer, so no state change can happen after teardown however much
time passes: no state-change callback fires on the disposed controller. -/
theorem claim_C6_teardown (tr : List CollapsibleSidebar.Ev)
    (hwf : CollapsibleSidebar.wf false tr = true) :
    (CollapsibleSidebar.teardown
        (CollapsibleSidebar.run CollapsibleSidebar.init tr)).pending = [] ∧
    ∀ k, CollapsibleSidebar.ticks k
        (CollapsibleSidebar.teardown
          (CollapsibleSidebar.run CollapsibleSidebar.init tr)) =
      CollapsibleSidebar.teardown
        (CollapsibleSidebar.run CollapsibleSidebar.init tr) := by
  have hinv0 : CollapsibleSidebar.Inv false CollapsibleSidebar.init := by
    constructor
    · intro p hp
      simp [CollapsibleSidebar.init] at hp
    · intro _
      rfl
  have hheld := CollapsibleSidebar.inv_run tr false CollapsibleSidebar.init
    hinv0 hwf
  have hpend := CollapsibleSidebar.teardown_pending _ hheld
  exact ⟨hpend, fun k => CollapsibleSidebar.ticks_noPending k _ hpend⟩

/-- Witness for claim C6: after a focus and a blur a 200-unit collapse
timer is pending, and teardown at that point cancels it. -/
theorem claim_C6_teardown_witness :
    CollapsibleSidebar.wf false
      [CollapsibleSidebar.Ev.focus, CollapsibleSidebar.Ev.blur] = true ∧
    (CollapsibleSidebar.run CollapsibleSidebar.init
      [CollapsibleSidebar.Ev.focus, CollapsibleSidebar.Ev.blur]).pending =
      [(0, 200)] ∧
    ((CollapsibleSidebar.teardown
        (CollapsibleSidebar.run CollapsibleSidebar.init
          [CollapsibleSidebar.Ev.focus,
            CollapsibleSidebar.Ev.blur])).pending = [] ∧
      ∀ k, CollapsibleSidebar.ticks k
          (CollapsibleSidebar.teardown
            (CollapsibleSidebar.run CollapsibleSidebar.init
              [CollapsibleSidebar.Ev.focus, CollapsibleSidebar.Ev.blur])) =
        CollapsibleSidebar.teardown
          (CollapsibleSidebar.run CollapsibleSidebar.init
            [CollapsibleSidebar.Ev.focus, CollapsibleSidebar.Ev.blur])) :=
  ⟨by decide, by decide,
    claim_C6_teardown
      [CollapsibleSidebar.Ev.focus, CollapsibleSidebar.Ev.blur] (by decide)⟩

/-- Claim C7 counterexample: the claim requires the focus handler to set
the Focus Registry shared sidebar-has-focus flag to true, but the modal
TVSidebar component never imports the TVFocusContext, so its
handleItemFocus only writes the component-local flags.  Starting from a
system whose registry flag is false, running the handler sets the local
hasSidebarFocus and isExpanded to true while the registry flag stays
false, contradicting the claimed notification. -/
theorem claim_C7_counterexample :
    (DrawerSidebar.handleItemFocusSys
        (DrawerSidebar.Sys.mk
          (DrawerSidebar.State.mk false false [] none 0)
          false)).comp.hasSidebarFocus = true ∧
    (DrawerSidebar.handleItemFocusSys
        (DrawerSidebar.Sys.mk
          (DrawerSidebar.State.mk false false [] none 0)
          false)).comp.isExpanded = true ∧
    (DrawerSidebar.handleItemFocusSys
        (DrawerSidebar.Sys.mk
          (DrawerSidebar.State.mk false false [] none 0)
          false)).registrySidebarHasFocus = false := by
  decide

/-- Claim C7 as amended: for every system state, the onItemFocus handler
of the modal drawer variant cancels any pending collapse (the timer id
held in the ref is no longer pending and the ref is nulled) and sets the
component-local hasSidebarFocus and isExpanded flags to true, but it does
not notify the Focus Registry: the registry shared sidebar-has-focus flag
is left exactly as it was. -/
theorem claim_C7_amended (w : DrawerSidebar.Sys) :
    (DrawerSidebar.handleItemFocusSys w).comp.hasSidebarFocus = true ∧
    (DrawerSidebar.handleItemFocusSys w).comp.isExpanded = true ∧
    (DrawerSidebar.handleItemFocusSys w).comp.collapseTimer = none ∧
    (∀ id, w.comp.collapseTimer = some id →
      ∀ p ∈ (DrawerSidebar.handleItemFocusSys w).comp.pending,
        ¬ p.1 = id) ∧
    (DrawerSidebar.handleItemFocusSys w).registrySidebarHasFocus =
      w.registrySidebarHasFocus := by
  refine ⟨rfl, rfl, rfl, ?_, rfl⟩
  intro id hid p hp
  have hp2 : p ∈ CollapsibleSidebar.clearHeld w.comp.pending
      w.comp.collapseTimer := hp
  rw [hid] at hp2
  unfold CollapsibleSidebar.clearHeld at hp2
  have := (List.mem_filter.mp hp2).2
  simpa using this

/-- Witness for the amended claim C7 on a system with a pending timer
(id 5) held in the ref and the registry flag false. -/
theorem claim_C7_amended_witness :
    (DrawerSidebar.handleItemFocusSys
        (DrawerSidebar.Sys.mk
          (DrawerSidebar.State.mk false false [(5, 100)] (some 5) 6)
          false)).comp.hasSidebarFocus = true ∧
    (DrawerSidebar.handleItemFocusSys
        (DrawerSidebar.Sys.mk
          (DrawerSidebar.State.mk false false [(5, 100)] (some 5) 6)
          false)).comp.isExpanded = true ∧
    (DrawerSidebar.handleItemFocusSys
        (DrawerSidebar.Sys.mk
          (DrawerSidebar.State.mk false false [(5, 100)] (some 5) 6)
          false)).comp.collapseTimer = none ∧
    (∀ id, (DrawerSidebar.Sys.mk
        (DrawerSidebar.State.mk false false [(5, 100)] (some 5) 6)
        false).comp.collapseTimer = some id →
      ∀ p ∈ (DrawerSidebar.handleItemFocusSys
          (DrawerSidebar.Sys.mk
            (DrawerSidebar.State.mk false false [(5, 100)] (some 5) 6)
            false)).comp.pending, ¬ p.1 = id) ∧
    (DrawerSidebar.handleItemFocusSys
        (DrawerSidebar.Sys.mk
          (DrawerSidebar.State.mk false false [(5, 100)] (some 5) 6)
          false)).registrySidebarHasFocus =
      (DrawerSidebar.Sys.mk
        (DrawerSidebar.State.mk false false [(5, 100)] (some 5) 6)
        false).registrySidebarHasFocus :=
  claim_C7_amended
    (DrawerSidebar.Sys.mk
      (DrawerSidebar.State.mk false false [(5, 100)] (some 5) 6) false)

/-- Claim C9 counterexample: two left presses 100 time units apart with
the sidebar unfocused are indeed detected (the handler resets its counter
and requests focus on the sidebar front door), but on detection the code
does not force a collapse and does not clear any has-focus flag: the
emitted action list is exactly the focus request, with no setExpanded
false and no setHasFocus false, contradicting the claimed consequence. -/
theorem claim_C9_counterexample :
    SidebarFocusHook.tvEventStep false
        (SidebarFocusHook.State.mk 0 0)
        (some SidebarFocusHook.EventType.left) 1000 =
      (SidebarFocusHook.State.mk 1000 1, []) ∧
    SidebarFocusHook.tvEventStep false
        (SidebarFocusHook.State.mk 1000 1)
        (some SidebarFocusHook.EventType.left) 1100 =
      (SidebarFocusHook.State.mk 1100 0,
        [SidebarFocusHook.Action.requestSidebarFocus]) ∧
    SidebarFocusHook.Action.setExpanded false ∉
      (SidebarFocusHook.tvEventStep false
        (SidebarFocusHook.State.mk 1000 1)
        (some SidebarFocusHook.EventType.left) 1100).2 ∧
    SidebarFocusHook.Action.setHasFocus false ∉
      (SidebarFocusHook.tvEventStep false
        (SidebarFocusHook.State.mk 1000 1)
        (some SidebarFocusHook.EventType.left) 1100).2 := by
  decide

/-- Claim C9 as amended: with the sidebar unfocused, two left presses
within 300 time units of each other, starting from an idle press counter,
are detected as the stuck-at-edge condition; on detection the hook only
requests focus on the sidebar front door (an attempt that the source
leaves as an empty stub) - it neither collapses the sidebar nor clears a
has-focus flag, and no run of the handler ever emits such a mutation.
Presses spaced 300 or more units apart reset the counter and never
trigger detection. -/
theorem claim_C9_amended :
    (∀ (s : SidebarFocusHook.State) (t1 t2 : Nat),
      300 ≤ t1 - s.lastLeftPressTime → t1 ≤ t2 → t2 - t1 < 300 →
      SidebarFocusHook.tvEventStep false s
          (some SidebarFocusHook.EventType.left) t1 =
        (SidebarFocusHook.State.mk t1 1, []) ∧
      SidebarFocusHook.tvEventStep false (SidebarFocusHook.State.mk t1 1)
          (some SidebarFocusHook.EventType.left) t2 =
        (SidebarFocusHook.State.mk t2 0,
          [SidebarFocusHook.Action.requestSidebarFocus])) ∧
    (∀ (s : SidebarFocusHook.State) (t : Nat),
      300 ≤ t - s.lastLeftPressTime →
      SidebarFocusHook.tvEventStep false s
          (some SidebarFocusHook.EventType.left) t =
        (SidebarFocusHook.State.mk t 1, [])) ∧
    (∀ (hf : Bool) (s : SidebarFocusHook.State)
        (evt : Option SidebarFocusHook.EventType) (t : Nat) (b : Bool),
      SidebarFocusHook.Action.setExpanded b ∉
        (SidebarFocusHook.tvEventStep hf s evt t).2 ∧
      SidebarFocusHook.Action.setHasFocus b ∉
        (SidebarFocusHook.tvEventStep hf s evt t).2) := by
  refine ⟨?_, ?_, ?_⟩
  · intro s t1 t2 h1 h12 h2
    have hn1 : ¬ (t1 - s.lastLeftPressTime < 300) := by omega
    constructor
    · unfold SidebarFocusHook.tvEventStep
      simp [hn1]
    · unfold SidebarFocusHook.tvEventStep
      simp [h2]
  · intro s t h1
    have hn1 : ¬ (t - s.lastLeftPressTime < 300) := by omega
    unfold SidebarFocusHook.tvEventStep
    simp [hn1]
  · intro hf s evt t b
    unfold SidebarFocusHook.tvEventStep
    cases evt with
    | none => simp
    | some et =>
        by_cases hhf : hf = true
        · subst hhf
          simp
        · have hhf2 : hf = false := Bool.eq_false_iff.mpr hhf
          subst hhf2
          by_cases het : et = SidebarFocusHook.EventType.left
          · subst het
            by_cases hts : t - s.lastLeftPressTime < 300
            · by_cases hc : 2 ≤ s.leftPressCount + 1
              · simp [hts, hc]
              · simp [hts, hc]
            · simp [hts]
          · simp [het]

/-- Witness for the amended claim C9: presses at times 1000 and 1100 from
the initial hook state, a spaced press at time 400 from a state whose
counter is 7, and the no-mutation fact at one concrete input. -/
theorem claim_C9_amended_witness :
    (SidebarFocusHook.tvEventStep false (SidebarFocusHook.State.mk 0 0)
        (some SidebarFocusHook.EventType.left) 1000 =
      (SidebarFocusHook.State.mk 1000 1, []) ∧
      SidebarFocusHook.tvEventStep false (SidebarFocusHook.State.mk 1000 1)
          (some SidebarFocusHook.EventType.left) 1100 =
        (SidebarFocusHook.State.mk 1100 0,
          [SidebarFocusHook.Action.requestSidebarFocus])) ∧
    (SidebarFocusHook.tvEventStep false (SidebarFocusHook.State.mk 0 7)
        (some SidebarFocusHook.EventType.left) 400 =
      (SidebarFocusHook.State.mk 400 1, [])) ∧
    (SidebarFocusHook.Action.setExpanded false ∉
      (SidebarFocusHook.tvEventStep false (SidebarFocusHook.State.mk 1000 1)
        (some SidebarFocusHook.EventType.left) 1100).2 ∧
      SidebarFocusHook.Action.setHasFocus false ∉
        (SidebarFocusHook.tvEventStep false
          (SidebarFocusHook.State.mk 1000 1)
          (some SidebarFocusHook.EventType.left) 1100).2) :=
  ⟨claim_C9_amended.1 (SidebarFocusHook.State.mk 0 0) 1000 1100 (by decide)
      (by decide) (by decide),
    claim_C9_amended.2.1 (SidebarFocusHook.State.mk 0 7) 400 (by decide),
    claim_C9_amended.2.2 false (SidebarFocusHook.State.mk 1000 1)
      (some SidebarFocusHook.EventType.left) 1100 false⟩
